import Mathlib

/-!
Verification of the `leszko/scripts` repository: a shallow embedding of the
KSeF invoice PDF generator (`ksef/invoice.py`) and the Librus message
forwarder (`librus/check_messages.py`), together with proofs of the
specification's testable properties.

Monetary amounts are modelled as exact rationals; Python's `round(x, 2)`
(round half to even at two decimal places, applied to exact decimal values)
is modelled by `round2`.  Python strings are modelled by `String` / lists of
characters; `str.isdigit` is modelled on the ASCII fragment that KSeF
tax-rate codes use.  XML documents are modelled as association lists from
xpath selector strings to element text, which is exactly the interface that
`get_xml_text` consumes.
-/

/- ===================== Definitions: monetary rounding ===================== -/

/-- Round a rational to an integer, halves to even: the semantics of
Python's `round` applied to an exact value. -/
def rhe (q : ℚ) : ℤ :=
  if q - ⌊q⌋ < 1/2 then ⌊q⌋
  else if 1/2 < q - ⌊q⌋ then ⌊q⌋ + 1
  else if ⌊q⌋ % 2 = 0 then ⌊q⌋ else ⌊q⌋ + 1

/-- Python `round(q, 2)` on an exact rational value. -/
def round2 (q : ℚ) : ℚ := (rhe (q * 100) : ℚ) / 100

/- ===================== Definitions: line items (invoice.py 186-211) ===================== -/

/-- Python `str.isdigit` restricted to the ASCII fragment that KSeF tax-rate
codes live in: nonempty and every character a decimal digit. -/
def pyIsDigit (s : String) : Bool := !s.data.isEmpty && s.data.all Char.isDigit

/-- Python `int(...)` on an all-digit string. -/
def digitsToNat (s : String) : ℕ := s.data.foldl (fun n c => 10 * n + (c.toNat - 48)) 0

/-- Per-line derived tax data, as computed at parse time
(`invoice.py`, `parse_invoice_data`, lines 188-199). -/
structure VatDerived where
  vatAmount : ℚ
  lineGross : ℚ
  vatDisplay : String
deriving DecidableEq, Repr

/-- Embedding of `invoice.py` lines 188-199: the VAT branch of the item
loop in `parse_invoice_data`.  A numeric (all-digit) tax-rate code yields
`round(net * rate / 100, 2)` tax and `round(net + tax, 2)` gross and is
displayed with a `%` suffix; any other code yields tax `0`, gross `= net`
and is displayed verbatim. -/
def deriveVat (vatCodeRaw : String) (lineTotal : ℚ) : VatDerived :=
  if pyIsDigit vatCodeRaw then
    let rate : ℕ := digitsToNat vatCodeRaw
    let vatAmount := round2 (lineTotal * rate / 100)
    { vatAmount := vatAmount
      lineGross := round2 (lineTotal + vatAmount)
      vatDisplay := vatCodeRaw ++ "%" }
  else
    { vatAmount := 0, lineGross := lineTotal, vatDisplay := vatCodeRaw }

/-- One parsed line item, keeping the fields that the totals loop reads
(`invoice.py` lines 201-211). -/
structure LineItem where
  lineTotal : ℚ
  vatAmount : ℚ
  lineGross : ℚ
  vatCode : String
deriving DecidableEq, Repr

/-- Build a `LineItem` from the raw tax code (`P_12`) and net total (`P_11`),
as the item loop of `parse_invoice_data` does. -/
def mkLineItem (p12 : String) (p11 : ℚ) : LineItem :=
  let d := deriveVat p12 p11
  { lineTotal := p11, vatAmount := d.vatAmount, lineGross := d.lineGross
    vatCode := d.vatDisplay }

/-- Embedding of `create_table_items` (`invoice.py` lines 375-416): the
totals accumulation over the item rows, in their original order.  The
drawing side effects are irrelevant to the returned totals. -/
def create_table_items (items : List LineItem) : ℚ × ℚ × ℚ :=
  items.foldl
    (fun t it => (t.1 + it.lineTotal, t.2.1 + it.vatAmount, t.2.2 + it.lineGross))
    (0, 0, 0)

/- ===================== Definitions: text normalisation (invoice.py 86-97) ===================== -/

/-- The `POLISH_TO_ASCII` translation table of `invoice.py` lines 87-92. -/
def polishToAscii (c : Char) : Char :=
  if c = 'ą' then 'a' else if c = 'ć' then 'c' else if c = 'ę' then 'e'
  else if c = 'ł' then 'l' else if c = 'ń' then 'n' else if c = 'ó' then 'o'
  else if c = 'ś' then 's' else if c = 'ź' then 'z' else if c = 'ż' then 'z'
  else if c = 'Ą' then 'A' else if c = 'Ć' then 'C' else if c = 'Ę' then 'E'
  else if c = 'Ł' then 'L' else if c = 'Ń' then 'N' else if c = 'Ó' then 'O'
  else if c = 'Ś' then 'S' else if c = 'Ź' then 'Z' else if c = 'Ż' then 'Z'
  else c

/-- Embedding of `transliterate` (`invoice.py` line 95-97). -/
def transliterate (s : String) : String := ⟨s.data.map polishToAscii⟩

/-- Embedding of `_pdf_text` (`invoice.py` lines 126-130): identity when a
Unicode font is loaded, transliteration otherwise. -/
def pdfText (useUnicodeFont : Bool) (s : String) : String :=
  if useUnicodeFont then s else transliterate s

/- ===================== Definitions: field extractor (invoice.py 141-145) ===================== -/

/-- An XML element tree, abstracted to what `get_xml_text` consumes: a map
from xpath selectors to the found element's text.  A missing key models
`root.find(...) = None`; an empty-string value models an element whose
text is empty or absent. -/
def XmlDoc := List (String × String)

/-- Embedding of `root.find(xpath, ns)` followed by the text access. -/
def xfind (doc : XmlDoc) (xpath : String) : Option String :=
  (List.find? (fun p => p.1 == xpath) doc).map (fun p => p.2)

/-- Embedding of `get_xml_text` (`invoice.py` lines 141-145): the found
element's text when present and non-empty, the caller-supplied default
otherwise.  A total function: no exception can escape. -/
def get_xml_text (doc : XmlDoc) (xpath : String) (dflt : String) : String :=
  match xfind doc xpath with
  | some t => if t = "" then dflt else t
  | none => dflt

/- ===================== Definitions: Python float() on decimal strings ===================== -/

/-- Python whitespace stripped by `str.strip()` and by `float(...)`. -/
def isPyWhitespace (c : Char) : Bool :=
  c = ' ' || c = '\t' || c = '\n' || c = '\r' || c = '\x0b' || c = '\x0c'

/-- Python `str.strip()` on a character list. -/
def pyStrip (l : List Char) : List Char :=
  ((l.dropWhile isPyWhitespace).reverse.dropWhile isPyWhitespace).reverse

/-- Split a character list at the first dot, if any. -/
def splitDot : List Char → List Char × Option (List Char)
  | [] => ([], none)
  | c :: rest =>
    if c = '.' then ([], some rest)
    else
      let r := splitDot rest
      (c :: r.1, r.2)

/-- Decimal value of a digit list. -/
def listToNat (l : List Char) : ℕ := l.foldl (fun n c => 10 * n + (c.toNat - 48)) 0

/-- Optional leading sign of a Python float literal. -/
def parseSign : List Char → ℚ × List Char
  | '-' :: rest => (-1, rest)
  | '+' :: rest => (1, rest)
  | l => (1, l)

/-- Embedding of Python `float(...)` on the plain-decimal fragment used by
KSeF amount fields (optional sign, digits, optional fractional part).
`none` models the `ValueError` that `float` raises on a malformed string. -/
def parseDecimal (s : String) : Option ℚ :=
  let t := pyStrip s.data
  let p := parseSign t
  match splitDot p.2 with
  | (a, none) =>
    if a ≠ [] ∧ a.all Char.isDigit then some (p.1 * listToNat a) else none
  | (a, some f) =>
    if ('.' ∉ f) ∧ (a ≠ [] ∨ f ≠ []) ∧ a.all Char.isDigit ∧ f.all Char.isDigit then
      some (p.1 * ((listToNat a : ℚ) + (listToNat f : ℚ) / 10 ^ f.length))
    else none

/- ===================== Definitions: parse_invoice_data (invoice.py 148-234) ===================== -/

/-- Split a character list on a separator character, Python `str.split(c)`. -/
def splitOnChar (sep : Char) : List Char → List (List Char)
  | [] => [[]]
  | x :: rest =>
    match splitOnChar sep rest with
    | [] => [[x]]
    | h :: t => if x = sep then [] :: h :: t else (x :: h) :: t

/-- Embedding of `(inv_number.split('/') + [''])[:2]` (`invoice.py` line 157). -/
def splitInvNumber (s : String) : String × String :=
  match (splitOnChar '/' s.data).map (fun l => (⟨l⟩ : String)) with
  | [] => ("", "")
  | [a] => (a, "")
  | a :: b :: _ => (a, b)

/-- A parsed item row with all fields the renderer reads
(`invoice.py` lines 201-211). -/
structure ParsedItem where
  desc : String
  unit : String
  qty : String
  unitPrice : ℚ
  lineTotal : ℚ
  vatAmount : ℚ
  lineGross : ℚ
  vatCode : String
deriving DecidableEq, Repr

/-- Embedding of one iteration of the `FaWiersz` loop
(`invoice.py` lines 187-211).  `none` models a propagated `ValueError`
from `float(...)`. -/
def parseItem (w : XmlDoc) : Option ParsedItem := do
  let vatCodeRaw := get_xml_text w "ns:P_12" "np."
  let lineTotal ← parseDecimal (get_xml_text w "ns:P_11" "0")
  let d := deriveVat vatCodeRaw lineTotal
  let unitPrice ← parseDecimal (get_xml_text w "ns:P_9A" "0")
  pure { desc := get_xml_text w "ns:P_7" ""
         unit := get_xml_text w "ns:P_8A" ""
         qty := get_xml_text w "ns:P_8B" ""
         unitPrice := unitPrice
         lineTotal := lineTotal
         vatAmount := d.vatAmount
         lineGross := d.lineGross
         vatCode := d.vatDisplay }

/-- The invoice source document: the header selectors and the `FaWiersz`
element list found by `root.findall`. -/
structure InvoiceXml where
  header : XmlDoc
  wiersze : List XmlDoc

/-- The fields of the parsed invoice record that the claims read. -/
structure ParsedInvoice where
  invNum : String
  invYear : String
  issueDate : String
  saleDate : String
  currency : String
  totalAmount : ℚ
  items : List ParsedItem
deriving DecidableEq, Repr

/-- Embedding of `parse_invoice_data` (`invoice.py` lines 148-234),
restricted to the fields the claims are about.  `none` models a propagated
`ValueError` from `float(...)` on a malformed numeric field; following the
source order, the declared total (`P_15`, line 174) is converted before the
item loop runs. -/
def parse_invoice_data (x : InvoiceXml) : Option ParsedInvoice := do
  let invNumber := get_xml_text x.header ".//ns:P_2" ""
  let nv := splitInvNumber invNumber
  let issueDate := get_xml_text x.header ".//ns:P_1" ""
  let saleDate := get_xml_text x.header ".//ns:P_6" issueDate
  let currency := get_xml_text x.header ".//ns:KodWaluty" ""
  let totalAmount ← parseDecimal (get_xml_text x.header ".//ns:P_15" "0")
  let items ← x.wiersze.mapM parseItem
  pure { invNum := nv.1, invYear := nv.2, issueDate := issueDate
         saleDate := saleDate, currency := currency
         totalAmount := totalAmount, items := items }

/- ===================== Definitions: party block layout (invoice.py 269-310) ===================== -/

/-- Layout constants of `invoice.py` lines 27-35 (millimetres). -/
def COL_WIDTH : ℚ := 85

/-- Gap between the seller and buyer columns (`invoice.py` line 28). -/
def GAP_BETWEEN_COLUMNS : ℚ := 30

/-- Body line height used in the party block (`invoice.py` line 35). -/
def LINE_HEIGHT_MEDIUM : ℚ := 5

/-- Embedding of `_wrap_text_to_lines` (`invoice.py` lines 258-266): the
abstract wrapping oracle `wrap` stands for the font-metric dependent
`multi_cell(dry_run=True)`; an empty text or an empty wrap result yields
the single blank line, so the result is never empty. -/
def wrapTextToLines (wrap : String → List String) (s : String) : List String :=
  if s = "" then [""]
  else match wrap s with
       | [] => [""]
       | ls => ls

/-- Seller parts list (`invoice.py` lines 283-286): name, then the NIP line
when the tax id is non-empty, then the address. -/
def sellerParts (useUnicodeFont : Bool) (name nip addr : String) : List String :=
  [pdfText useUnicodeFont name]
    ++ (if nip ≠ "" then ["NIP: " ++ nip] else [])
    ++ [pdfText useUnicodeFont addr]

/-- Buyer parts list (`invoice.py` lines 292-295): same pattern, with the
tax id stripped and tested for non-blankness. -/
def buyerParts (useUnicodeFont : Bool) (name nip addr : String) : List String :=
  [pdfText useUnicodeFont name]
    ++ (if (⟨pyStrip nip.data⟩ : String) ≠ "" then ["NIP: " ++ (⟨pyStrip nip.data⟩ : String)] else [])
    ++ [pdfText useUnicodeFont addr]

/-- Wrap every part and concatenate, as lines 287-289 and 296-298 do. -/
def buildLines (wrap : String → List String) (parts : List String) : List String :=
  (parts.map (wrapTextToLines wrap)).flatten

/-- One committed PDF text cell: position of its top-left corner and its
text content. -/
structure PdfCell where
  x : ℚ
  y : ℚ
  text : String
deriving DecidableEq, Repr

/-- The row-by-row drawing loop of `invoice.py` lines 304-308: for each
row one seller cell at the left margin and one buyer cell at `buyer_x`,
both at the same y-coordinate, which advances by one line height per row. -/
def drawRows (lMargin buyerX lh : ℚ) : ℚ → List (String × String) → List PdfCell
  | _, [] => []
  | y, (st, bt) :: rest =>
    ⟨lMargin, y, st⟩ :: ⟨buyerX, y, bt⟩ :: drawRows lMargin buyerX lh (y + lh) rest

/-- Total line lookup with blank default, `lines[i]` on the padded list. -/
def lineAt (l : List String) (i : ℕ) : String := (l[i]?).getD ""

/-- Embedding of `create_seller_buyer_section` (`invoice.py` lines 283-310):
build the two wrapped line lists independently, pad the shorter with blank
lines to the common row count, then emit the cells row by row. -/
def create_seller_buyer_section (wrap : String → List String) (useUnicodeFont : Bool)
    (lMargin yStart : ℚ) (sName sNip sAddr bName bNip bAddr : String) : List PdfCell :=
  let sLines := buildLines wrap (sellerParts useUnicodeFont sName sNip sAddr)
  let bLines := buildLines wrap (buyerParts useUnicodeFont bName bNip bAddr)
  let n := max sLines.length bLines.length
  drawRows lMargin (COL_WIDTH + GAP_BETWEEN_COLUMNS) LINE_HEIGHT_MEDIUM yStart
    ((sLines ++ List.replicate (n - sLines.length) "").zip
      (bLines ++ List.replicate (n - bLines.length) ""))

/- ===================== Definitions: output path (invoice.py 525-534) ===================== -/

/-- Embedding of `os.path.expanduser` for the cases the script can hit. -/
def expanduser (home s : String) : String :=
  match s.data with
  | ['~'] => home
  | '~' :: '/' :: rest => home ++ (⟨'/' :: rest⟩ : String)
  | _ => s

/-- Embedding of `os.path.join(dir, filename)` on two components. -/
def joinPath (a b : String) : String :=
  if b.data.head? = some '/' then b
  else if a = "" then b
  else if a.data.getLast? = some '/' then a ++ b
  else a ++ "/" ++ b

/-- Embedding of `_build_output_path` (`invoice.py` lines 525-534):
transliterated seller name, fixed filename pattern, output directory from
the environment-style configuration (default the current directory).
Directory creation (`os.makedirs`) is an I/O side effect outside the pure
model. -/
def build_output_path (home : String) (outputDirEnv : Option String)
    (sellerNameRaw invNum invYear : String) : String :=
  let filename := transliterate sellerNameRaw ++ " - Invoice " ++ invNum ++ "-" ++ invYear ++ ".pdf"
  let outputDir := expanduser home (outputDirEnv.getD ".")
  joinPath outputDir filename

/-- Stated from the spec's words, for comparison with the source-derived
`build_output_path`: the filename pattern
`"{transliterated seller name} - Invoice {seq}-{year}.pdf"`. -/
def specFilenamePattern (sellerName seq year : String) : String :=
  transliterate sellerName ++ " - Invoice " ++ seq ++ "-" ++ year ++ ".pdf"

/- ===================== Definitions: message forwarding (check_messages.py) ===================== -/

/-- A message summary as the forwarding loop reads it: identifier, unread
flag and send timestamp (ISO-formatted, so lexicographic order is
chronological). -/
structure LMsg where
  msgId : String
  unread : Bool
  sendDate : String
deriving DecidableEq, Repr

/-- Lexicographic strict order on character lists. -/
def charsLt : List Char → List Char → Bool
  | [], [] => false
  | [], _ :: _ => true
  | _ :: _, [] => false
  | x :: xs, y :: ys => if x < y then true else if y < x then false else charsLt xs ys

/-- Lexicographic strict order on strings (ISO timestamps compare
chronologically). -/
def strLt (a b : String) : Bool := charsLt a.data b.data

/-- Modelled from the spec: the repository's pre-loading draft of the
forwarding script (not under `src/`) reorders the fetched message set
unread-first, then newest-timestamp-first, before processing.  `msgBefore m x`
holds when `m` must be processed strictly before `x` under that ordering. -/
def msgBefore (m x : LMsg) : Bool :=
  (m.unread && !x.unread) || ((m.unread == x.unread) && strLt x.sendDate m.sendDate)

/-- Modelled from the spec: stable insertion used by `reorderMessages`. -/
def insertMsg (m : LMsg) : List LMsg → List LMsg
  | [] => [m]
  | x :: xs => if msgBefore m x then m :: x :: xs else x :: insertMsg m xs

/-- Modelled from the spec: stable sort of the full message set,
unread-first, then newest-timestamp-first. -/
def reorderMessages (msgs : List LMsg) : List LMsg := msgs.foldr insertMsg []

/-- Embedding of one iteration of the forwarding loop
(`check_messages.py` lines 133-166): skip a message whose identifier is
empty or already recorded, otherwise forward it (count it) and record its
identifier. -/
def procMsg (st : ℕ × Finset String) (m : LMsg) : ℕ × Finset String :=
  if m.msgId = "" ∨ m.msgId ∈ st.2 then st
  else (st.1 + 1, insert m.msgId st.2)

/-- Embedding of the forwarding loop over the full message list: returns
the number of newly forwarded messages and the updated forwarded set
(`new_count` and `forwarded` of `check_messages.py`). -/
def runLoop (forwarded : Finset String) (msgs : List LMsg) : ℕ × Finset String :=
  msgs.foldl procMsg (0, forwarded)

/-- Embedding of `save_forwarded` (`check_messages.py` lines 40-41): the
persisted JSON array is the sorted identifier list. -/
def saveForwarded (s : Finset String) : List String := s.sort (· ≤ ·)

/- ===================== Definitions: pagination (check_messages.py 110-129) ===================== -/

/-- Embedding of the page-fetching loop (`check_messages.py` lines 110-129).
`server page` returns the page's message list and the server-reported
total of that response.  The loop stops on an empty page, when the fetched
count reaches the reported total, or at the hard ceiling of 100 pages;
the result also carries the last fetched page number. -/
def fetchGo (server : ℕ → List LMsg × ℕ) (page : ℕ) (acc : List LMsg) : List LMsg × ℕ :=
  if (server page).1 = [] then (acc, page)
  else if (server page).2 ≤ (acc ++ (server page).1).length then (acc ++ (server page).1, page)
  else if 100 < page + 1 then (acc ++ (server page).1, page)
  else fetchGo server (page + 1) (acc ++ (server page).1)
termination_by 101 - page
decreasing_by omega

/-- The full pre-load: pages are fetched starting from page 1 with an empty
accumulator. -/
def fetchAllPages (server : ℕ → List LMsg × ℕ) : List LMsg × ℕ :=
  fetchGo server 1 []

/-- A wrapping oracle for concrete witnesses: every part fits on one line. -/
def wrapId : String → List String := fun s => [s]

/- ===================== Helper lemmas ===================== -/

theorem rhe_eq_low {q : ℚ} {f : ℤ} (h1 : (f : ℚ) ≤ q) (h2 : q - f < 1/2) :
    rhe q = f := by
  have hf : ⌊q⌋ = f := Int.floor_eq_iff.2 ⟨h1, by linarith⟩
  simp only [rhe, hf]
  rw [if_pos h2]

theorem rhe_eq_high {q : ℚ} {f : ℤ} (h1 : 1/2 < q - f) (h2 : q < f + 1) :
    rhe q = f + 1 := by
  have hf : ⌊q⌋ = f := Int.floor_eq_iff.2 ⟨by linarith, by linarith⟩
  simp only [rhe, hf]
  rw [if_neg (by linarith), if_pos h1]

theorem rhe_eq_half_even {q : ℚ} {f : ℤ} (h : q - f = 1/2) (he : f % 2 = 0) :
    rhe q = f := by
  have hf : ⌊q⌋ = f := Int.floor_eq_iff.2 ⟨by linarith, by linarith⟩
  simp only [rhe, hf]
  rw [if_neg (by rw [h]; exact lt_irrefl _), if_neg (by rw [h]; exact lt_irrefl _), if_pos he]

theorem rhe_eq_half_odd {q : ℚ} {f : ℤ} (h : q - f = 1/2) (ho : f % 2 = 1) :
    rhe q = f + 1 := by
  have hf : ⌊q⌋ = f := Int.floor_eq_iff.2 ⟨by linarith, by linarith⟩
  simp only [rhe, hf]
  rw [if_neg (by rw [h]; exact lt_irrefl _), if_neg (by rw [h]; exact lt_irrefl _),
    if_neg (by omega)]

theorem rhe_intCast (k : ℤ) : rhe (k : ℚ) = k := by
  apply rhe_eq_low (by simp) (by norm_num)

/-- Rounding to cents fixes any value that already is a whole number of
cents. -/
theorem round2_cent (k : ℤ) : round2 ((k : ℚ) / 100) = (k : ℚ) / 100 := by
  have h : ((k : ℚ) / 100) * 100 = (k : ℚ) := by field_simp
  rw [round2, h, rhe_intCast]

/-- Every output of `round2` is a whole number of cents. -/
theorem round2_is_cent (q : ℚ) : ∃ m : ℤ, round2 q = (m : ℚ) / 100 :=
  ⟨rhe (q * 100), rfl⟩

theorem round2_eval_low {q : ℚ} (f : ℤ) {c : ℚ} (h1 : (f : ℚ) ≤ q * 100)
    (h2 : q * 100 - f < 1/2) (h3 : (f : ℚ)/100 = c) : round2 q = c := by
  rw [round2, rhe_eq_low h1 h2, h3]

theorem round2_eval_high {q : ℚ} (f : ℤ) {c : ℚ} (h1 : 1/2 < q * 100 - f)
    (h2 : q * 100 < f + 1) (h3 : ((f + 1 : ℤ) : ℚ)/100 = c) : round2 q = c := by
  rw [round2, rhe_eq_high h1 h2, h3]

theorem round2_eval_half_even {q : ℚ} (f : ℤ) {c : ℚ} (h1 : q * 100 - f = 1/2)
    (h2 : f % 2 = 0) (h3 : (f : ℚ)/100 = c) : round2 q = c := by
  rw [round2, rhe_eq_half_even h1 h2, h3]

theorem round2_eval_half_odd {q : ℚ} (f : ℤ) {c : ℚ} (h1 : q * 100 - f = 1/2)
    (h2 : f % 2 = 1) (h3 : ((f + 1 : ℤ) : ℚ)/100 = c) : round2 q = c := by
  rw [round2, rhe_eq_half_odd h1 h2, h3]

theorem deriveVat_numeric (code : String) (N : ℚ) (hd : pyIsDigit code = true) :
    deriveVat code N =
      ⟨round2 (N * (digitsToNat code : ℚ) / 100),
       round2 (N + round2 (N * (digitsToNat code : ℚ) / 100)),
       code ++ "%"⟩ := by
  simp [deriveVat, hd]

theorem deriveVat_eval_67 : deriveVat "67" (3/200) = ⟨1/100, 1/50, "67%"⟩ := by
  rw [deriveVat_numeric _ _ (by decide), show digitsToNat "67" = 67 from by decide]
  have h1 : round2 ((3:ℚ)/200 * ((67:ℕ) : ℚ) / 100) = 1/100 := by
    apply round2_eval_low 1 <;> push_cast <;> norm_num
  rw [h1]
  have h2 : round2 ((3:ℚ)/200 + 1/100) = 1/50 := by
    apply round2_eval_half_even 2 <;> push_cast <;> norm_num
  rw [h2]
  rfl

theorem round2_eval_315 : round2 ((3:ℚ)/200) = 1/50 := by
  apply round2_eval_half_odd 1 <;> push_cast <;> norm_num

/-- C1, as stated, is false on the code: at net N = 3/200 (0.015) and
numeric rate code "67" (both inside the claimed ranges R ∈ [0,100], N ≥ 0),
the derived gross round(N + tax, 2) = 0.02 differs from
round(N, 2) + tax = 0.03. -/
theorem claim_c1_counterexample :
    pyIsDigit "67" = true ∧ digitsToNat "67" ≤ 100 ∧ (0 : ℚ) ≤ 3/200 ∧
    (deriveVat "67" (3/200)).vatAmount = round2 ((3:ℚ)/200 * (digitsToNat "67" : ℚ) / 100) ∧
    (deriveVat "67" (3/200)).lineGross ≠ round2 ((3:ℚ)/200) + (deriveVat "67" (3/200)).vatAmount := by
  refine ⟨by decide, by decide, by norm_num, ?_, ?_⟩
  · rw [deriveVat_numeric _ _ (by decide)]
  · rw [deriveVat_eval_67, round2_eval_315]
    norm_num

/-- C1 (amended): for every line item with an all-digit tax-rate code R in
[0,100] and net N ≥ 0, the derived tax equals round(N * R / 100, 2) and the
derived gross equals round(N + tax, 2); this agrees with
round(N, 2) + tax whenever the net is a whole number of cents. -/
theorem claim_c1_line_tax_and_gross (code : String) (N : ℚ)
    (hd : pyIsDigit code = true) (hr : digitsToNat code ≤ 100) (hN : 0 ≤ N) :
    (deriveVat code N).vatAmount = round2 (N * (digitsToNat code : ℚ) / 100) ∧
    (deriveVat code N).lineGross = round2 (N + round2 (N * (digitsToNat code : ℚ) / 100)) ∧
    (∀ k : ℤ, N = (k : ℚ) / 100 →
      (deriveVat code N).lineGross = round2 N + (deriveVat code N).vatAmount) := by
  rw [deriveVat_numeric _ _ hd]
  refine ⟨rfl, rfl, ?_⟩
  intro k hk
  obtain ⟨m, hm⟩ := round2_is_cent (N * (digitsToNat code : ℚ) / 100)
  rw [hm, hk]
  have h1 : (k : ℚ)/100 + (m : ℚ)/100 = ((k + m : ℤ) : ℚ)/100 := by push_cast; ring
  rw [h1, round2_cent, round2_cent]
  push_cast
  ring

/-- C1 witness: the amended statement instantiated at rate "23" and
net 10. -/
theorem claim_c1_witness :
    pyIsDigit "23" = true ∧ digitsToNat "23" ≤ 100 ∧ (0 : ℚ) ≤ 10 ∧
    ((deriveVat "23" 10).vatAmount = round2 (10 * (digitsToNat "23" : ℚ) / 100) ∧
     (deriveVat "23" 10).lineGross = round2 (10 + round2 (10 * (digitsToNat "23" : ℚ) / 100)) ∧
     (∀ k : ℤ, (10 : ℚ) = (k : ℚ) / 100 →
       (deriveVat "23" 10).lineGross = round2 10 + (deriveVat "23" 10).vatAmount)) :=
  ⟨by decide, by decide, by norm_num,
    claim_c1_line_tax_and_gross "23" 10 (by decide) (by decide) (by norm_num)⟩

/-- C3: a line item whose tax-rate code is not all-digit (an exemption
marker) derives tax exactly 0 and gross exactly equal to the net line
total, with the code displayed verbatim. -/
theorem claim_c3_exemption (code : String) (N : ℚ) (h : pyIsDigit code = false) :
    deriveVat code N = ⟨0, N, code⟩ := by
  simp [deriveVat, h]

/-- C3 witness: the exemption code "np." at net 5. -/
theorem claim_c3_exemption_witness :
    pyIsDigit "np." = false ∧ deriveVat "np." 5 = ⟨0, 5, "np."⟩ :=
  ⟨by decide, claim_c3_exemption "np." 5 (by decide)⟩

theorem create_table_items_foldl :
    ∀ (items : List LineItem) (a b c : ℚ),
      items.foldl
        (fun t it => (t.1 + it.lineTotal, t.2.1 + it.vatAmount, t.2.2 + it.lineGross))
        (a, b, c)
      = (a + (items.map LineItem.lineTotal).sum,
         b + (items.map LineItem.vatAmount).sum,
         c + (items.map LineItem.lineGross).sum)
  | [], a, b, c => by simp
  | it :: rest, a, b, c => by
    simp only [List.foldl_cons, List.map_cons, List.sum_cons]
    rw [create_table_items_foldl rest]
    refine Prod.ext ?_ (Prod.ext ?_ ?_) <;> simp <;> ring

theorem mkLineItem_eval_1005 :
    mkLineItem "23" (2001/200) = ⟨2001/200, 23/10, 123/10, "23%"⟩ := by
  rw [mkLineItem, deriveVat_numeric _ _ (by decide), show digitsToNat "23" = 23 from by decide]
  have h1 : round2 ((2001:ℚ)/200 * ((23:ℕ) : ℚ) / 100) = 23/10 := by
    apply round2_eval_low 230 <;> push_cast <;> norm_num
  rw [h1]
  have h2 : round2 ((2001:ℚ)/200 + 23/10) = 123/10 := by
    apply round2_eval_half_even 1230 <;> push_cast <;> norm_num
  rw [h2]
  rfl

/-- C2: the document totals returned by the table loop are the plain sums of
the already-rounded per-line values accumulated in the items' original
order; on three lines of net 10.005 at rate 23 this gross total (36.90)
differs from rounding the unrounded aggregate once at the end (36.92). -/
theorem claim_c2_totals_are_sums_of_rounded :
    (∀ items : List LineItem,
      create_table_items items =
        ((items.map LineItem.lineTotal).sum,
         (items.map LineItem.vatAmount).sum,
         (items.map LineItem.lineGross).sum)) ∧
    mkLineItem "23" (2001/200) = ⟨2001/200, 23/10, 123/10, "23%"⟩ ∧
    (create_table_items
        [mkLineItem "23" (2001/200), mkLineItem "23" (2001/200), mkLineItem "23" (2001/200)]).2.2
      = 369/10 ∧
    round2 (3 * ((2001:ℚ)/200 * (1 + (23:ℚ)/100))) = 923/25 ∧
    (369 : ℚ)/10 ≠ 923/25 := by
  have hsum : ∀ items : List LineItem,
      create_table_items items =
        ((items.map LineItem.lineTotal).sum,
         (items.map LineItem.vatAmount).sum,
         (items.map LineItem.lineGross).sum) := by
    intro items
    rw [create_table_items, create_table_items_foldl]
    simp
  refine ⟨hsum, mkLineItem_eval_1005, ?_, ?_, by norm_num⟩
  · rw [hsum, mkLineItem_eval_1005]
    norm_num
  · apply round2_eval_high 3691 <;> norm_num

/-- C10: a tax-rate code is treated as numeric exactly when it is nonempty
and all decimal digits; numeric codes are displayed with a "%" suffix,
while every other code — including "23.5" and "23%" — takes the exemption
branch (tax 0, gross = net) and is displayed verbatim. -/
theorem claim_c10_isdigit_boundary (code : String) (N : ℚ) :
    (pyIsDigit code = true ↔ code.data ≠ [] ∧ ∀ c ∈ code.data, c.isDigit = true) ∧
    (pyIsDigit code = true → (deriveVat code N).vatDisplay = code ++ "%") ∧
    (pyIsDigit code = false → deriveVat code N = ⟨0, N, code⟩) ∧
    deriveVat "23.5" N = ⟨0, N, "23.5"⟩ ∧
    deriveVat "23%" N = ⟨0, N, "23%"⟩ := by
  refine ⟨?_, ?_, ?_, ?_, ?_⟩
  · simp [pyIsDigit, List.all_eq_true, List.isEmpty_iff]
  · intro h
    rw [deriveVat_numeric _ _ h]
  · intro h
    simp [deriveVat, h]
  · simp [deriveVat, show pyIsDigit "23.5" = false from by decide]
  · simp [deriveVat, show pyIsDigit "23%" = false from by decide]

/-- C10 witness: the all-digit code "8" takes the numeric branch with a "%"
suffix, and the non-digit code "zw" takes the exemption branch. -/
theorem claim_c10_isdigit_boundary_witness :
    (deriveVat "8" 7).vatDisplay = "8" ++ "%" ∧ deriveVat "zw" 7 = ⟨0, 7, "zw"⟩ :=
  ⟨(claim_c10_isdigit_boundary "8" 7).2.1 (by decide),
   (claim_c10_isdigit_boundary "zw" 7).2.2.1 (by decide)⟩

/-- C6: the field extractor returns the caller-supplied default on any
missing path and never raises; but when a required numeric field (the
declared total `P_15`) is present with malformed text, the parse fails and
the error propagates instead of defaulting the field to zero. -/
theorem claim_c6_missing_defaults_malformed_raises :
    (∀ (doc : XmlDoc) (path dflt : String),
      xfind doc path = none → get_xml_text doc path dflt = dflt) ∧
    (∀ (x : InvoiceXml) (t : String),
      xfind x.header ".//ns:P_15" = some t → t ≠ "" → parseDecimal t = none →
      parse_invoice_data x = none) := by
  constructor
  · intro doc path dflt h
    simp [get_xml_text, h]
  · intro x t hf ht hp
    have hg : get_xml_text x.header ".//ns:P_15" "0" = t := by
      simp [get_xml_text, hf, ht]
    simp [parse_invoice_data, hg, hp]

/-- C6 witness: a missing selector yields the default "0", and the present
but malformed total "12,50" makes the whole parse fail. -/
theorem claim_c6_missing_defaults_malformed_raises_witness :
    xfind ([("k", "v")] : XmlDoc) "missing" = none ∧
    get_xml_text ([("k", "v")] : XmlDoc) "missing" "0" = "0" ∧
    xfind (InvoiceXml.mk [(".//ns:P_15", "12,50")] []).header ".//ns:P_15" = some "12,50" ∧
    parseDecimal "12,50" = none ∧
    parse_invoice_data ⟨[(".//ns:P_15", "12,50")], []⟩ = none :=
  ⟨by decide, claim_c6_missing_defaults_malformed_raises.1 [("k", "v")] "missing" "0" (by decide),
   by decide, by decide,
   claim_c6_missing_defaults_malformed_raises.2 ⟨[(".//ns:P_15", "12,50")], []⟩ "12,50"
     (by decide) (by decide) (by decide)⟩

/-- C8: the output path is the configured output directory (default the
current directory ".") joined with the filename built by the literal
pattern "{transliterated seller name} - Invoice {seq}-{year}.pdf"; at a
diacritic seller name with sequence "5" and year "2024" this evaluates to
"./Zolta Spolka - Invoice 5-2024.pdf". -/
theorem claim_c8_output_filename :
    (∀ (home : String) (env : Option String) (name num year : String),
      build_output_path home env name num year
        = joinPath (expanduser home (env.getD ".")) (specFilenamePattern name num year)) ∧
    transliterate "Żółta Spółka" = "Zolta Spolka" ∧
    build_output_path "/home/u" none "Żółta Spółka" "5" "2024"
      = "./Zolta Spolka - Invoice 5-2024.pdf" ∧
    build_output_path "/home/u" (some "/tmp/out") "Żółta Spółka" "5" "2024"
      = "/tmp/out/Zolta Spolka - Invoice 5-2024.pdf" := by
  exact ⟨fun home env name num year => rfl, by decide, by decide, by decide⟩

/-- C5: the pre-loading variant's reordering puts unread messages first and
newer timestamps first within each group, so A(unread, 2024-01-01),
B(read, 2024-06-01), C(unread, 2024-03-01) are processed in the order
C, A, B. -/
theorem claim_c5_unread_first_newest_first :
    reorderMessages
        [⟨"A", true, "2024-01-01"⟩, ⟨"B", false, "2024-06-01"⟩, ⟨"C", true, "2024-03-01"⟩]
      = [⟨"C", true, "2024-03-01"⟩, ⟨"A", true, "2024-01-01"⟩, ⟨"B", false, "2024-06-01"⟩] ∧
    (reorderMessages
        [⟨"A", true, "2024-01-01"⟩, ⟨"B", false, "2024-06-01"⟩, ⟨"C", true, "2024-03-01"⟩]).map
        LMsg.msgId
      = ["C", "A", "B"] := by
  constructor <;> decide

theorem procMsg_subset (st : ℕ × Finset String) (m : LMsg) : st.2 ⊆ (procMsg st m).2 := by
  rw [procMsg]
  split
  · exact Finset.Subset.refl _
  · exact Finset.subset_insert _ _

theorem foldl_procMsg_subset (msgs : List LMsg) :
    ∀ st : ℕ × Finset String, st.2 ⊆ (msgs.foldl procMsg st).2 := by
  induction msgs with
  | nil => intro st; exact Finset.Subset.refl _
  | cons x rest ih =>
    intro st
    simp only [List.foldl_cons]
    exact (procMsg_subset st x).trans (ih (procMsg st x))

theorem foldl_procMsg_mem (msgs : List LMsg) :
    ∀ (st : ℕ × Finset String) (m : LMsg), m ∈ msgs → m.msgId ≠ "" →
      m.msgId ∈ (msgs.foldl procMsg st).2 := by
  induction msgs with
  | nil => intro st m hm; exact absurd hm (List.not_mem_nil m)
  | cons x rest ih =>
    intro st m hm hne
    simp only [List.foldl_cons]
    rcases List.mem_cons.1 hm with h | h
    · subst h
      apply foldl_procMsg_subset
      rw [procMsg]
      split
      · next hc => exact hc.resolve_left hne
      · exact Finset.mem_insert_self _ _
    · exact ih _ m h hne

theorem foldl_procMsg_noop (msgs : List LMsg) :
    ∀ st : ℕ × Finset String,
      (∀ m ∈ msgs, m.msgId = "" ∨ m.msgId ∈ st.2) → msgs.foldl procMsg st = st := by
  induction msgs with
  | nil => intro st _; rfl
  | cons x rest ih =>
    intro st h
    simp only [List.foldl_cons]
    have hx : procMsg st x = st := by
      rw [procMsg, if_pos (h x (List.mem_cons_self x rest))]
    rw [hx]
    exact ih st (fun m hm => h m (List.mem_cons_of_mem x hm))

/-- C7: the forwarding loop is idempotent across runs: with the forwarded
set produced by a first run and no new upstream messages, a second run
forwards zero messages and leaves the forwarded set — hence the persisted
sorted identifier file — unchanged; moreover the persisted sorted list
reloads to exactly the in-memory set. -/
theorem claim_c7_forwarding_idempotent (f : Finset String) (msgs : List LMsg) :
    runLoop (runLoop f msgs).2 msgs = (0, (runLoop f msgs).2) ∧
    saveForwarded (runLoop (runLoop f msgs).2 msgs).2 = saveForwarded (runLoop f msgs).2 ∧
    (saveForwarded (runLoop f msgs).2).toFinset = (runLoop f msgs).2 := by
  have h1 : runLoop (runLoop f msgs).2 msgs = (0, (runLoop f msgs).2) := by
    rw [runLoop, runLoop]
    apply foldl_procMsg_noop
    intro m hm
    by_cases he : m.msgId = ""
    · exact Or.inl he
    · exact Or.inr (foldl_procMsg_mem msgs (0, f) m hm he)
  refine ⟨h1, by rw [h1], ?_⟩
  ext a
  simp [saveForwarded, Finset.mem_sort, List.mem_toFinset]

theorem fetchGo_stops (server : ℕ → List LMsg × ℕ) :
    ∀ (n page : ℕ) (acc : List LMsg), page ≤ 100 → 100 - page ≤ n →
      (fetchGo server page acc).2 ≤ 100 ∧
      ((server (fetchGo server page acc).2).1 = [] ∨
       (server (fetchGo server page acc).2).2 ≤ (fetchGo server page acc).1.length ∨
       (fetchGo server page acc).2 = 100) := by
  intro n
  induction n with
  | zero =>
    intro page acc h100 hn
    have hp : page = 100 := by omega
    subst hp
    rw [fetchGo]
    split
    · next h => exact ⟨le_refl _, Or.inl h⟩
    · split
      · next h => exact ⟨le_refl _, Or.inr (Or.inl h)⟩
      · split
        · exact ⟨le_refl _, Or.inr (Or.inr rfl)⟩
        · next h => exact absurd (by omega) h
  | succ k ih =>
    intro page acc h100 hn
    rw [fetchGo]
    split
    · next h => exact ⟨h100, Or.inl h⟩
    · split
      · next h => exact ⟨h100, Or.inr (Or.inl h)⟩
      · split
        · next h => exact ⟨h100, Or.inr (Or.inr (by omega))⟩
        · next h => exact ih (page + 1) (acc ++ (server page).1) (by omega) (by omega)

/-- C9: the page-fetching loop always terminates with at most 100 pages
visited, and it stops only because the last fetched page was empty, the
fetched count reached the server-reported total, or the hard 100-page
safety ceiling was hit. -/
theorem claim_c9_pagination_terminates (server : ℕ → List LMsg × ℕ) :
    (fetchAllPages server).2 ≤ 100 ∧
    ((server (fetchAllPages server).2).1 = [] ∨
     (server (fetchAllPages server).2).2 ≤ (fetchAllPages server).1.length ∨
     (fetchAllPages server).2 = 100) := by
  have h := fetchGo_stops server 99 1 [] (by omega) (by omega)
  simpa [fetchAllPages] using h

theorem drawRows_length (lM bX lh : ℚ) (pairs : List (String × String)) :
    ∀ y : ℚ, (drawRows lM bX lh y pairs).length = 2 * pairs.length := by
  induction pairs with
  | nil => intro y; rfl
  | cons p rest ih =>
    intro y
    obtain ⟨a, b⟩ := p
    simp only [drawRows, List.length_cons, ih (y + lh)]
    omega

theorem drawRows_getElem_even (lM bX lh : ℚ) (pairs : List (String × String)) :
    ∀ (y : ℚ) (i : ℕ),
      (drawRows lM bX lh y pairs)[2 * i]? =
        (pairs[i]?).map (fun p => (⟨lM, y + i * lh, p.1⟩ : PdfCell)) := by
  induction pairs with
  | nil => intro y i; simp [drawRows]
  | cons p rest ih =>
    intro y i
    obtain ⟨a, b⟩ := p
    cases i with
    | zero => simp [drawRows]
    | succ j =>
      have h2 : 2 * (j + 1) = 2 * j + 1 + 1 := by ring
      simp only [drawRows, h2, List.getElem?_cons_succ]
      rw [ih (y + lh) j]
      cases hj : rest[j]? with
      | none => simp
      | some pr =>
        simp only [Option.map_some']
        congr 2
        push_cast
        ring

theorem drawRows_getElem_odd (lM bX lh : ℚ) (pairs : List (String × String)) :
    ∀ (y : ℚ) (i : ℕ),
      (drawRows lM bX lh y pairs)[2 * i + 1]? =
        (pairs[i]?).map (fun p => (⟨bX, y + i * lh, p.2⟩ : PdfCell)) := by
  induction pairs with
  | nil => intro y i; simp [drawRows]
  | cons p rest ih =>
    intro y i
    obtain ⟨a, b⟩ := p
    cases i with
    | zero => simp [drawRows]
    | succ j =>
      have h2 : 2 * (j + 1) + 1 = 2 * j + 1 + 1 + 1 := by ring
      simp only [drawRows, h2, List.getElem?_cons_succ]
      rw [ih (y + lh) j]
      cases hj : rest[j]? with
      | none => simp
      | some pr =>
        simp only [Option.map_some']
        congr 2
        push_cast
        ring

theorem replicate_blank_getElem (n i : ℕ) (h : i < n) :
    (List.replicate n "")[i]? = some "" := by
  rw [List.getElem?_eq_getElem (by simpa using h)]
  simp

theorem padded_getElem (l : List String) (n i : ℕ) (hln : l.length ≤ n) (hi : i < n) :
    (l ++ List.replicate (n - l.length) "")[i]? = some (lineAt l i) := by
  by_cases hil : i < l.length
  · rw [List.getElem?_append_left hil, lineAt, List.getElem?_eq_getElem hil]
    rfl
  · push_neg at hil
    rw [List.getElem?_append_right hil, replicate_blank_getElem _ _ (by omega), lineAt,
      List.getElem?_eq_none (by omega)]
    rfl

theorem zip_getElem_some {α β : Type} :
    ∀ (l₁ : List α) (l₂ : List β) (i : ℕ) (a : α) (b : β),
      l₁[i]? = some a → l₂[i]? = some b → (l₁.zip l₂)[i]? = some (a, b)
  | [], _, i, _, _, h, _ => by simp at h
  | _ :: _, [], i, _, _, _, h => by simp at h
  | x :: xs, y :: ys, 0, a, b, h1, h2 => by
    simp only [List.getElem?_cons_zero, Option.some.injEq] at h1 h2
    simp [List.zip_cons_cons, h1, h2]
  | x :: xs, y :: ys, i + 1, a, b, h1, h2 => by
    simp only [List.getElem?_cons_succ] at h1 h2
    simp only [List.zip_cons_cons, List.getElem?_cons_succ]
    exact zip_getElem_some xs ys i a b h1 h2

theorem drawRows_padded_spec (lM bX lh yStart : ℚ) (sL bL : List String) :
    (drawRows lM bX lh yStart
        ((sL ++ List.replicate (max sL.length bL.length - sL.length) "").zip
          (bL ++ List.replicate (max sL.length bL.length - bL.length) ""))).length
      = 2 * max sL.length bL.length ∧
    ∀ i, i < max sL.length bL.length →
      (drawRows lM bX lh yStart
          ((sL ++ List.replicate (max sL.length bL.length - sL.length) "").zip
            (bL ++ List.replicate (max sL.length bL.length - bL.length) "")))[2 * i]?
        = some ⟨lM, yStart + i * lh, lineAt sL i⟩ ∧
      (drawRows lM bX lh yStart
          ((sL ++ List.replicate (max sL.length bL.length - sL.length) "").zip
            (bL ++ List.replicate (max sL.length bL.length - bL.length) "")))[2 * i + 1]?
        = some ⟨bX, yStart + i * lh, lineAt bL i⟩ := by
  constructor
  · rw [drawRows_length, List.length_zip, List.length_append, List.length_append,
      List.length_replicate, List.length_replicate]
    omega
  · intro i hi
    have hzip :
        ((sL ++ List.replicate (max sL.length bL.length - sL.length) "").zip
          (bL ++ List.replicate (max sL.length bL.length - bL.length) ""))[i]?
          = some (lineAt sL i, lineAt bL i) :=
      zip_getElem_some _ _ i _ _
        (padded_getElem sL _ i (Nat.le_max_left _ _) hi)
        (padded_getElem bL _ i (Nat.le_max_right _ _) hi)
    constructor
    · rw [drawRows_getElem_even, hzip]
      rfl
    · rw [drawRows_getElem_odd, hzip]
      rfl

/-- C4: the party block builds the seller and buyer line lists
independently, pads the shorter one with blank lines to the common row
count, and draws strictly row by row: the block has exactly
2 · max(|seller lines|, |buyer lines|) cells, and for every row index i the
seller cell and the buyer cell both sit at y-coordinate
yStart + i · line height — cells beyond a column's own lines are rendered
blank rather than omitted. -/
theorem claim_c4_party_block_aligned
    (wrap : String → List String) (u : Bool) (lMargin yStart : ℚ)
    (sName sNip sAddr bName bNip bAddr : String) :
    (create_seller_buyer_section wrap u lMargin yStart sName sNip sAddr bName bNip bAddr).length
      = 2 * max (buildLines wrap (sellerParts u sName sNip sAddr)).length
          (buildLines wrap (buyerParts u bName bNip bAddr)).length ∧
    ∀ i, i < max (buildLines wrap (sellerParts u sName sNip sAddr)).length
          (buildLines wrap (buyerParts u bName bNip bAddr)).length →
      (create_seller_buyer_section wrap u lMargin yStart sName sNip sAddr bName bNip bAddr)[2 * i]?
        = some ⟨lMargin, yStart + i * LINE_HEIGHT_MEDIUM,
            lineAt (buildLines wrap (sellerParts u sName sNip sAddr)) i⟩ ∧
      (create_seller_buyer_section wrap u lMargin yStart sName sNip sAddr bName bNip bAddr)[2 * i + 1]?
        = some ⟨COL_WIDTH + GAP_BETWEEN_COLUMNS, yStart + i * LINE_HEIGHT_MEDIUM,
            lineAt (buildLines wrap (buyerParts u bName bNip bAddr)) i⟩ :=
  drawRows_padded_spec lMargin (COL_WIDTH + GAP_BETWEEN_COLUMNS) LINE_HEIGHT_MEDIUM yStart
    (buildLines wrap (sellerParts u sName sNip sAddr))
    (buildLines wrap (buyerParts u bName bNip bAddr))

/-- C4 witness: a seller wrapping to 3 lines (name, NIP line, address) and
a buyer wrapping to 2 lines; at row index 2 the buyer cell is a padded
blank at the same y-coordinate as the seller's address cell. -/
theorem claim_c4_party_block_aligned_witness :
    2 < max (buildLines wrapId (sellerParts true "S" "1" "A")).length
        (buildLines wrapId (buyerParts true "B" "" "C")).length ∧
    (create_seller_buyer_section wrapId true 10 50 "S" "1" "A" "B" "" "C")[2 * 2]?
      = some ⟨10, 50 + (2 : ℕ) * LINE_HEIGHT_MEDIUM,
          lineAt (buildLines wrapId (sellerParts true "S" "1" "A")) 2⟩ ∧
    (create_seller_buyer_section wrapId true 10 50 "S" "1" "A" "B" "" "C")[2 * 2 + 1]?
      = some ⟨COL_WIDTH + GAP_BETWEEN_COLUMNS, 50 + (2 : ℕ) * LINE_HEIGHT_MEDIUM,
          lineAt (buildLines wrapId (buyerParts true "B" "" "C")) 2⟩ :=
  ⟨by decide,
   ((claim_c4_party_block_aligned wrapId true 10 50 "S" "1" "A" "B" "" "C").2 2 (by decide)).1,
   ((claim_c4_party_block_aligned wrapId true 10 50 "S" "1" "A" "B" "" "C").2 2 (by decide)).2⟩
